import Mathlib

/-!
Verification development for the tri-color IHC data-processing app
(src/app.py).  The app's data model is embedded shallowly:

* pandas cell values are `Option Value` (with `none` playing the role of
  null/NaN), a data frame is a column list, an integer row index, and a
  list of association-list records;
* the DuckDB aggregation query (`final_query`, src/app.py lines 154-180)
  is embedded over typed rows carrying exactly the columns the query
  reads: `image_number`, the classification name column, and the
  area-measurement column (areas and thresholds are modelled as
  rationals, standing for the numeric values the comparisons see);
* the mapping-file reader (`create_dataframe_from_txt`, lines 42-63) is
  embedded over character lists, with Python str.strip, str.split()
  (whitespace runs), str.split of a separator (keeping empty pieces) and
  int() on digit strings modelled explicitly; fallible parsing returns
  `Option`;
* the pandas comparator pipeline (lines 132-146) is embedded over typed
  reference and aggregate rows.  Line 141 of the source calls
  DataFrame.query without assigning the result, so no filtering step
  appears in the embedded `df_check`.
-/

/-- A non-null pandas cell value. -/
inductive Value
  | vStr : String → Value
  | vInt : Int → Value
  | vRat : ℚ → Value
  | vBool : Bool → Value
deriving DecidableEq

/-- One data-frame row: cells keyed by column name.  A key that is absent
behaves as a null cell, matching pandas NaN fill. -/
abbrev Record := List (String × Option Value)

/-- Cell lookup; a missing key is a null cell. -/
def lookupCol : Record → String → Option Value
  | [], _ => none
  | (k, v) :: r, c => if k = c then v else lookupCol r c

/-- The keys actually present in a record. -/
def recKeys (r : Record) : List String := r.map Prod.fst

/-- Overwrite the cell at key `c` (first occurrence), appending the key if
absent — the effect of a pandas scalar column assignment on one row. -/
def setKey (c : String) (v : Option Value) : Record → Record
  | [] => [(c, v)]
  | (k, w) :: r => if k = c then (c, v) :: r else (k, w) :: setKey c v r

/-- Re-express a record over a given column list: one cell per listed
column, missing keys becoming null. -/
def realignRecord (cols : List String) (r : Record) : Record :=
  cols.map (fun c => (c, lookupCol r c))

/-- A pandas data frame: named columns, an integer row index, and rows. -/
structure DataFrame where
  cols : List String
  index : List Int
  rows : List Record
deriving DecidableEq

/-- The values of one column, top to bottom. -/
def colVals (df : DataFrame) (c : String) : List (Option Value) :=
  df.rows.map (fun r => lookupCol r c)

/-- Scalar column assignment `df[c] = v`: broadcast `v` to every row,
appending the column when new. -/
def setCol (df : DataFrame) (c : String) (v : Option Value) : DataFrame :=
  { cols := if c ∈ df.cols then df.cols else df.cols ++ [c]
  , index := df.index
  , rows := df.rows.map (setKey c v) }

/-- Insertion step of a generic insertion sort with a boolean order. -/
def insertLe (le : α → α → Bool) (x : α) : List α → List α
  | [] => [x]
  | y :: ys => if le x y then x :: y :: ys else y :: insertLe le x ys

/-- Insertion sort with a boolean order. -/
def sortLe (le : α → α → Bool) : List α → List α
  | [] => []
  | x :: xs => insertLe le x (sortLe le xs)

/-- Ordinal (code-point) string order, as Python sorted() uses. -/
def strLe (a b : String) : Bool := !(decide (b < a))

/-- `df.reindex(sorted(df.columns), axis=1)` (src/app.py line 37). -/
def sortCols (df : DataFrame) : DataFrame :=
  let sc := sortLe strLe df.cols
  { cols := sc, index := df.index, rows := df.rows.map (realignRecord sc) }

/-- Column union across frames, first-appearance order, as
`pd.concat(axis=0)` builds the outer column set. -/
def unionCols : List (List String) → List String
  | [] => []
  | cs :: rest => cs ++ ((unionCols rest).filter (fun c => decide (c ∉ cs)))

/-- `pd.concat(dfs, axis=0)`: rows stacked in order, realigned to the
column union (cells of missing columns become null), index labels kept. -/
def concatRows (dfs : List DataFrame) : DataFrame :=
  let cols := unionCols (dfs.map (fun d => d.cols))
  { cols := cols
  , index := dfs.flatMap (fun d => d.index)
  , rows := dfs.flatMap (fun d => d.rows.map (realignRecord cols)) }

/-- `reset_index(drop=True)`: a dense 0-based integer index. -/
def resetIndex (df : DataFrame) : DataFrame :=
  { df with index := (List.range df.rows.length).map Int.ofNat }

/-- The Dataset Combiner, src/app.py line 78:
`pd.concat(geojson_df_list, axis=0).reset_index(drop=True)`. -/
def df_combine (dfs : List DataFrame) : DataFrame :=
  resetIndex (concatRows dfs)

/-- A GeoJSON document as handed to `read_geojson_file`, already parsed:
its top-level field names in order, the document-level "type" value
(broadcast by `pd.read_json` to one cell per feature), and its features.
Each feature is given in the path-flattened form `pd.json_normalize`
produces, i.e. keyed by dotted property paths. -/
structure GeoJsonDoc where
  topCols : List String
  typeVal : Option Value
  features : List Record

/-- `pd.json_normalize(df_raw["features"])`: columns are the union of the
feature keys in first-appearance order; each feature row is realigned to
that column set with missing paths null. -/
def jsonNormalize (features : List Record) : DataFrame :=
  let cols := unionCols (features.map recKeys)
  { cols := cols
  , index := (List.range features.length).map Int.ofNat
  , rows := features.map (realignRecord cols) }

/-- `.rename({"type": "feature_type"}, axis=1)` (src/app.py lines 17-19). -/
def renameTypeCol (df : DataFrame) : DataFrame :=
  { cols := df.cols.map (fun c => if c = "type" then "feature_type" else c)
  , index := df.index
  , rows := df.rows.map (fun r =>
      r.map (fun kv => (if kv.1 = "type" then "feature_type" else kv.1, kv.2))) }

/-- `pd.concat([df_raw["type"], df_json_normalize], axis=1)` (line 20):
prepend the document-level "type" column. -/
def prependTypeCol (v : Option Value) (df : DataFrame) : DataFrame :=
  { cols := "type" :: df.cols
  , index := df.index
  , rows := df.rows.map (fun r => ("type", v) :: r) }

/-- The flattened frame `df_clean` right after src/app.py line 20, before
any backfill. -/
def flattenedDoc (doc : GeoJsonDoc) : DataFrame :=
  prependTypeCol doc.typeVal (renameTypeCol (jsonNormalize doc.features))

/-- src/app.py line 24: `df_clean["has_is_locked_column_in_original_file"]
= True`. -/
def normStep1 (doc : GeoJsonDoc) : DataFrame :=
  setCol (flattenedDoc doc) "has_is_locked_column_in_original_file"
    (some (Value.vBool true))

/-- src/app.py lines 25-27: when "properties.isLocked" is absent, create
it as null and flip the provenance flag to False. -/
def normStep2 (doc : GeoJsonDoc) : DataFrame :=
  if "properties.isLocked" ∈ (normStep1 doc).cols then normStep1 doc
  else setCol (setCol (normStep1 doc) "properties.isLocked" none)
    "has_is_locked_column_in_original_file" (some (Value.vBool false))

/-- src/app.py line 31: the classification-names provenance flag, set to
True. -/
def normStep3 (doc : GeoJsonDoc) : DataFrame :=
  setCol (normStep2 doc)
    "has_properties_classification_names_column_in_original_file"
    (some (Value.vBool true))

/-- src/app.py lines 32-34: when "properties.classification.names" is
absent, create it as null and flip its provenance flag to False. -/
def normStep4 (doc : GeoJsonDoc) : DataFrame :=
  if "properties.classification.names" ∈ (normStep3 doc).cols then normStep3 doc
  else setCol (setCol (normStep3 doc) "properties.classification.names" none)
    "has_properties_classification_names_column_in_original_file"
    (some (Value.vBool false))

/-- The Schema Normalizer, src/app.py lines 12-39.  The assert on line 15
is the SchemaError; then the isLocked backfill (lines 24-27), the
classification-names backfill (lines 31-34), and the alphabetical column
reorder (line 37). -/
def read_geojson_file (doc : GeoJsonDoc) : Except String DataFrame :=
  if doc.topCols = ["type", "features"] then
    Except.ok (sortCols (normStep4 doc))
  else Except.error "columns are not as expected"

/-- One (mouse, image) pair of the Mapping Table. -/
structure MappingRow where
  mouse_id : String
  image_number : Int
deriving DecidableEq

/-- Python whitespace test for the characters that occur in mapping
files (space, tab, carriage return, newline). -/
def isPySpace (c : Char) : Bool :=
  c = ' ' || c = '\t' || c = '\n' || c = '\r'

/-- Drop leading whitespace. -/
def dropLeadingWs : List Char → List Char
  | [] => []
  | c :: cs => if isPySpace c then dropLeadingWs cs else c :: cs

/-- Python `str.strip()`. -/
def pyStrip (s : List Char) : List Char :=
  ((dropLeadingWs ((dropLeadingWs s).reverse)).reverse)

/-- Helper of `pySplitWs`, carrying the reversed current token. -/
def splitWsAux : List Char → List Char → List (List Char)
  | [], acc => if acc.isEmpty then [] else [acc.reverse]
  | c :: cs, acc =>
    if isPySpace c then
      if acc.isEmpty then splitWsAux cs [] else acc.reverse :: splitWsAux cs []
    else splitWsAux cs (c :: acc)

/-- Python `str.split()` with no argument: split on whitespace runs,
producing no empty tokens. -/
def pySplitWs (s : List Char) : List (List Char) := splitWsAux s []

/-- Helper of `splitOnChar`, carrying the reversed current piece. -/
def splitOnCharAux (sep : Char) : List Char → List Char → List (List Char)
  | [], acc => [acc.reverse]
  | c :: cs, acc =>
    if c = sep then acc.reverse :: splitOnCharAux sep cs []
    else splitOnCharAux sep cs (c :: acc)

/-- Python `str.split(sep)` for a one-character separator: empty pieces
are kept. -/
def splitOnChar (sep : Char) (s : List Char) : List (List Char) :=
  splitOnCharAux sep s []

/-- Decimal digit value of a character, if it is a digit. -/
def digitVal (c : Char) : Option Nat :=
  if '0' ≤ c ∧ c ≤ '9' then some (c.toNat - '0'.toNat) else none

/-- Helper of `parseDigits`: accumulate digits, failing on a non-digit. -/
def parseDigitsAux : List Char → Nat → Option Nat
  | [], acc => some acc
  | c :: cs, acc =>
    match digitVal c with
    | some d => parseDigitsAux cs (acc * 10 + d)
    | none => none

/-- Python `int()` on the digit strings mapping files carry: fails on the
empty string or any non-digit character. -/
def parseDigits : List Char → Option Nat
  | [] => none
  | c :: cs => parseDigitsAux (c :: cs) 0

/-- Python `range(s, e)` over naturals: empty when `e ≤ s`. -/
def pyRange (s e : Nat) : List Nat :=
  (List.range (e - s)).map (fun i => s + i)

/-- The inner loop of `create_dataframe_from_txt` (src/app.py lines
59-60): `for number in range(start, end + 1): data.append(...)`. -/
def expandRange (mid : String) (s e : Nat) : List MappingRow :=
  (pyRange s (e + 1)).map (fun n => { mouse_id := mid, image_number := Int.ofNat n })

/-- One iteration of the line loop of `create_dataframe_from_txt`
(src/app.py lines 54-60): strip, skip blank lines, split into exactly two
whitespace-separated tokens, split the range token on the hyphen into
exactly two integers, expand the inclusive range.  `none` is the Python
ValueError. -/
def parseMappingLine (line : String) : Option (List MappingRow) :=
  if (pyStrip line.toList).isEmpty then some []
  else
    match pySplitWs (pyStrip line.toList) with
    | [mid, rng] =>
      match splitOnChar '-' rng with
      | [ds, de] =>
        match parseDigits ds, parseDigits de with
        | some sv, some ev => some (expandRange (String.mk mid) sv ev)
        | _, _ => none
      | _ => none
    | _ => none

/-- The Mapping Expander, src/app.py lines 42-63: every line expanded in
order; the first malformed line aborts with an error (`none`). -/
def create_dataframe_from_txt : List String → Option (List MappingRow)
  | [] => some []
  | l :: ls => do
    let a ← parseMappingLine l
    let b ← create_dataframe_from_txt ls
    pure (a ++ b)

/-- The columns of the combined annotation table that the aggregation
query reads: `image_number`, `"properties.classification.name"` and
`"properties.measurements.Area µm^2"` (both nullable). -/
structure AnnotationRow where
  image_number : Int
  classification : Option String
  area : Option ℚ
deriving DecidableEq

/-- One row of the left-joined table `c left join m`. -/
structure JoinedRow where
  mouse_id : Option String
  image_number : Int
  classification : Option String
  area : Option ℚ
deriving DecidableEq

/-- `df_combine as c left join df_mouse_mapping as m on c.image_number =
m.image_number` (src/app.py lines 162-167): every annotation row is kept;
with no mapping match its mouse identifier is null, with several matches
it is duplicated once per match. -/
def leftJoin (c : List AnnotationRow) (m : List MappingRow) : List JoinedRow :=
  c.flatMap (fun a =>
    let ms := m.filter (fun r => decide (r.image_number = a.image_number))
    if ms.isEmpty then
      [{ mouse_id := none, image_number := a.image_number,
         classification := a.classification, area := a.area }]
    else
      ms.map (fun r =>
        { mouse_id := some r.mouse_id, image_number := a.image_number,
          classification := a.classification, area := a.area }))

/-- SQL `"properties.classification.name" = 's'`: null compares to
nothing. -/
def clsIs (r : JoinedRow) (s : String) : Bool :=
  decide (r.classification = some s)

/-- SQL `"properties.measurements.Area µm^2" >= t`: false (null) on a
null area. -/
def areaGe (r : JoinedRow) (t : ℚ) : Bool :=
  match r.area with
  | none => false
  | some a => decide (t ≤ a)

/-- SQL `"properties.classification.name" != 'Other'`: false (null) on a
null classification. -/
def clsNotOther (r : JoinedRow) : Bool :=
  match r.classification with
  | none => false
  | some s => decide (s ≠ "Other")

/-- The WHERE clause of the aggregation query without its final
`!= 'Other'` conjunct (src/app.py lines 169-175). -/
def wherePassNoOther (t8 t4 tf : ℚ) (r : JoinedRow) : Bool :=
  (clsIs r "CD8" && areaGe r t8)
    || (clsIs r "CD4" && areaGe r t4)
    || (clsIs r "Foxp3" && areaGe r tf)

/-- The full WHERE clause of the aggregation query (src/app.py lines
168-176). -/
def wherePass (t8 t4 tf : ℚ) (r : JoinedRow) : Bool :=
  wherePassNoOther t8 t4 tf r && clsNotOther r

/-- The joined rows surviving the WHERE clause. -/
def filteredRows (c : List AnnotationRow) (m : List MappingRow)
    (t8 t4 tf : ℚ) : List JoinedRow :=
  (leftJoin c m).filter (wherePass t8 t4 tf)

/-- GROUP BY / ORDER BY key order: mouse ascending then image ascending,
null mouse identifiers last (DuckDB's default null placement). -/
def keyLe : Option String × Int → Option String × Int → Bool
  | (none, i), (none, j) => decide (i ≤ j)
  | (none, _), (some _, _) => false
  | (some _, _), (none, _) => true
  | (some a, i), (some b, j) => if a = b then decide (i ≤ j) else !(decide (b < a))

/-- The distinct group keys of the filtered rows, in output order. -/
def groupKeys (rows : List JoinedRow) : List (Option String × Int) :=
  sortLe keyLe ((rows.map (fun r => (r.mouse_id, r.image_number))).dedup)

/-- One output row of the aggregation query. -/
structure AggRecord where
  mouse_id : Option String
  image_number : Int
  row_count : Nat
  cd8_count : Nat
  cd4_count : Nat
  foxp3_count : Nat
deriving DecidableEq

/-- The SELECT aggregates for one group: `count(*)` and the three
`count(case when ... then 1 else null end)` conditional counts
(src/app.py lines 155-161), all over the group's filtered rows. -/
def mkAggRecord (rows : List JoinedRow) (k : Option String × Int) : AggRecord :=
  let g := rows.filter (fun r => decide ((r.mouse_id, r.image_number) = k))
  { mouse_id := k.1
  , image_number := k.2
  , row_count := g.length
  , cd8_count := (g.filter (fun r => clsIs r "CD8")).length
  , cd4_count := (g.filter (fun r => clsIs r "CD4")).length
  , foxp3_count := (g.filter (fun r => clsIs r "Foxp3")).length }

/-- The Threshold Aggregator: the whole `final_query` of src/app.py lines
154-180 (the tuning-path `query` of lines 104-130 is the same query). -/
def final_query (c : List AnnotationRow) (m : List MappingRow)
    (t8 t4 tf : ℚ) : List AggRecord :=
  let rows := filteredRows c m t8 t4 tf
  (groupKeys rows).map (mkAggRecord rows)

/-- One row of the reference count file after the `select_col` projection
(src/app.py line 132): count fields may be null. -/
structure RefRow where
  mouse_id : Option String
  image_number : Int
  cd8_by_xm : Option ℚ
  cd4_by_xm : Option ℚ
  foxp3_by_xm : Option ℚ
deriving DecidableEq

/-- One row of the comparison table `df_check` with its delta columns. -/
structure CheckRow where
  mouse_id : Option String
  image_number : Int
  cd8_by_xm : Option ℚ
  cd4_by_xm : Option ℚ
  foxp3_by_xm : Option ℚ
  row_count : Nat
  cd8_count : Nat
  cd4_count : Nat
  foxp3_count : Nat
  cd8_delta : Option ℚ
  cd4_delta : Option ℚ
  foxp3_delta : Option ℚ
deriving DecidableEq

/-- One merged row with its deltas (src/app.py lines 144-146): a null
reference count gives a null delta. -/
def mkCheckRow (r : RefRow) (a : AggRecord) : CheckRow :=
  { mouse_id := r.mouse_id
  , image_number := r.image_number
  , cd8_by_xm := r.cd8_by_xm
  , cd4_by_xm := r.cd4_by_xm
  , foxp3_by_xm := r.foxp3_by_xm
  , row_count := a.row_count
  , cd8_count := a.cd8_count
  , cd4_count := a.cd4_count
  , foxp3_count := a.foxp3_count
  , cd8_delta := r.cd8_by_xm.map (fun v => v - (a.cd8_count : ℚ))
  , cd4_delta := r.cd4_by_xm.map (fun v => v - (a.cd4_count : ℚ))
  , foxp3_delta := r.foxp3_by_xm.map (fun v => v - (a.foxp3_count : ℚ)) }

/-- The Validation Comparator, src/app.py lines 132-146: an inner
`pd.merge` on (mouse_id, image_number) in left-key order, then the delta
columns.  The `df_check.query(...)` call on line 141 does not assign its
result, so it filters nothing and has no counterpart here. -/
def df_check (ref : List RefRow) (agg : List AggRecord) : List CheckRow :=
  ref.flatMap (fun r =>
    (agg.filter (fun a =>
        decide (a.mouse_id = r.mouse_id ∧ a.image_number = r.image_number))).map
      (mkCheckRow r))

/-! ### Helper lemmas on records, realignment and sorting -/

theorem lookupCol_realign_of_mem {c : String} {cols : List String} (r : Record)
    (h : c ∈ cols) : lookupCol (realignRecord cols r) c = lookupCol r c := by
  induction cols with
  | nil => cases h
  | cons k ks ih =>
    by_cases hk : k = c
    · subst hk; simp [realignRecord, lookupCol]
    · have hc : c ∈ ks := by
        rcases List.mem_cons.mp h with h' | h'
        · exact absurd h'.symm hk
        · exact h'
      simp [realignRecord, lookupCol, hk] at ih ⊢
      exact ih hc

theorem lookupCol_realign_of_not_mem {c : String} {cols : List String} (r : Record)
    (h : c ∉ cols) : lookupCol (realignRecord cols r) c = none := by
  induction cols with
  | nil => rfl
  | cons k ks ih =>
    have hk : ¬k = c := fun he => h (he ▸ List.mem_cons_self k ks)
    have hc : c ∉ ks := fun hm => h (List.mem_cons_of_mem k hm)
    simp [realignRecord, lookupCol, hk] at ih ⊢
    exact ih hc

theorem lookupCol_eq_none_of_not_mem_keys {c : String} {r : Record}
    (h : c ∉ recKeys r) : lookupCol r c = none := by
  induction r with
  | nil => rfl
  | cons kv r ih =>
    have hk : ¬kv.1 = c := fun he => h (by simp [recKeys, he])
    have hc : c ∉ recKeys r := fun hm => h (by simp [recKeys] at hm ⊢; exact Or.inr hm)
    cases kv with
    | mk k v => simp [lookupCol, hk] at ih ⊢; exact ih hc

theorem mem_insertLe {le : α → α → Bool} {x y : α} {l : List α} :
    y ∈ insertLe le x l ↔ y = x ∨ y ∈ l := by
  induction l with
  | nil => simp [insertLe]
  | cons a as ih =>
    by_cases h : le x a = true
    · simp [insertLe, h, List.mem_cons]
    · simp [insertLe, h, List.mem_cons, ih]
      tauto

theorem mem_sortLe {le : α → α → Bool} {x : α} {l : List α} :
    x ∈ sortLe le l ↔ x ∈ l := by
  induction l with
  | nil => simp [sortLe]
  | cons a as ih => simp [sortLe, mem_insertLe, List.mem_cons, ih]

/-! ### C3: the Mapping Expander -/

/-- C3: a well-formed non-blank mapping line (one that strips and splits
into a mouse token and a range token of exactly two digit strings) parses
without error to exactly the inclusive expansion of its range: the count
is end - start + 1 when start ≤ end, and an empty (not erroneous) record
list when start > end. -/
theorem mapping_line_inclusive_expansion
    (line : String) (mid rng ds de : List Char) (sv ev : Nat)
    (h1 : pySplitWs (pyStrip line.toList) = [mid, rng])
    (h2 : splitOnChar '-' rng = [ds, de])
    (h3 : parseDigits ds = some sv)
    (h4 : parseDigits de = some ev) :
    parseMappingLine line = some (expandRange (String.mk mid) sv ev)
    ∧ (sv ≤ ev → (expandRange (String.mk mid) sv ev).length = ev - sv + 1)
    ∧ (ev < sv → expandRange (String.mk mid) sv ev = []) := by
  have h1' : pySplitWs (pyStrip line.data) = [mid, rng] := h1
  have hne : pyStrip line.data ≠ [] := by
    intro hs; rw [hs] at h1'; simp [pySplitWs, splitWsAux] at h1'
  refine ⟨?_, ?_, ?_⟩
  · unfold parseMappingLine
    simp [hne, h1', h2, h3, h4]
  · intro hle
    simp only [expandRange, pyRange, List.length_map, List.length_range]
    omega
  · intro hlt
    have : ev + 1 - sv = 0 := by omega
    simp [expandRange, pyRange, this]

/-- Witness for C3, instantiating both examples of the claim: the line
"M7 3-3" yields exactly the single record (M7, 3), and "M7 5-3" yields
zero records without an error. -/
theorem mapping_line_inclusive_expansion_witness :
    parseMappingLine "M7 3-3" = some [{ mouse_id := "M7", image_number := 3 }]
    ∧ parseMappingLine "M7 5-3" = some [] := by
  constructor
  · have h := mapping_line_inclusive_expansion "M7 3-3"
      ['M', '7'] ['3', '-', '3'] ['3'] ['3'] 3 3
      (by decide) (by decide) (by decide) (by decide)
    rw [h.1]; decide
  · have h := mapping_line_inclusive_expansion "M7 5-3"
      ['M', '7'] ['5', '-', '3'] ['5'] ['3'] 5 3
      (by decide) (by decide) (by decide) (by decide)
    rw [h.1, h.2.2 (by omega)]

/-! ### C9: the Schema Normalizer's top-level check -/

/-- C9: the Normalizer fails (the assert on src/app.py line 15, the
SchemaError) exactly when the document's top-level field list differs
from ["type", "features"]; a document with exactly those two fields in
that order proceeds to normalization without error. -/
theorem read_geojson_schema_check (doc : GeoJsonDoc) :
    (∃ e, read_geojson_file doc = Except.error e) ↔
      doc.topCols ≠ ["type", "features"] := by
  unfold read_geojson_file
  by_cases h : doc.topCols = ["type", "features"]
  · simp [h]
  · simp [h]

/-! ### C8 and C5: the Dataset Combiner -/

/-- C8: the combined table's row count is the sum of the fragments' row
counts; its rows are exactly the fragments' rows in supplied order with
internal order preserved (realigned to the union column set, which
changes no cell value of any union column); and its index is reset to the
dense 0-based sequence. -/
theorem df_combine_concatenation
    (dfs : List DataFrame) :
    (df_combine dfs).rows.length = (dfs.map (fun d => d.rows.length)).sum
    ∧ (df_combine dfs).rows
        = dfs.flatMap (fun d =>
            d.rows.map (realignRecord (unionCols (dfs.map (fun x => x.cols)))))
    ∧ (df_combine dfs).index
        = (List.range (df_combine dfs).rows.length).map Int.ofNat
    ∧ ∀ d ∈ dfs, ∀ r ∈ d.rows, ∀ c ∈ unionCols (dfs.map (fun x => x.cols)),
        lookupCol (realignRecord (unionCols (dfs.map (fun x => x.cols))) r) c
          = lookupCol r c := by
  refine ⟨?_, rfl, rfl, ?_⟩
  · simp [df_combine, resetIndex, concatRows, List.length_flatMap, Function.comp_def,
      List.length_map]
  · intro d _ r _ c hc
    exact lookupCol_realign_of_mem r hc

/-- First combiner fragment of the concrete mismatch example: one row,
single column "a". -/
def fragA : DataFrame :=
  { cols := ["a"], index := [0], rows := [[("a", some (Value.vInt 1))]] }

/-- Second combiner fragment of the concrete mismatch example: one row,
columns "a" and "b". -/
def fragB : DataFrame :=
  { cols := ["a", "b"], index := [0],
    rows := [[("a", some (Value.vInt 2)), ("b", some (Value.vInt 3))]] }

/-- Witness for C8 at the concrete fragments: the combined row count is
the sum 1 + 1 and realignment does not change the "b" cell of fragB's
row. -/
theorem df_combine_concatenation_witness :
    lookupCol (realignRecord (unionCols ([fragA, fragB].map (fun x => x.cols)))
        [("a", some (Value.vInt 2)), ("b", some (Value.vInt 3))]) "b"
      = lookupCol [("a", some (Value.vInt 2)), ("b", some (Value.vInt 3))] "b"
    ∧ (df_combine [fragA, fragB]).rows.length
        = ([fragA, fragB].map (fun d => d.rows.length)).sum := by
  refine ⟨?_, (df_combine_concatenation [fragA, fragB]).1⟩
  exact (df_combine_concatenation [fragA, fragB]).2.2.2 fragB (by decide)
    [("a", some (Value.vInt 2)), ("b", some (Value.vInt 3))] (by decide)
    "b" (by decide)

/-- Counterexample to C5 as stated: concatenating two fragments whose
column sets differ does not fail — `pd.concat` (line 78) succeeds,
producing the union column set and a null cell where fragA lacks column
"b". -/
theorem df_combine_mismatch_succeeds_with_null :
    df_combine [fragA, fragB]
      = { cols := ["a", "b"], index := [0, 1],
          rows := [[("a", some (Value.vInt 1)), ("b", none)],
                   [("a", some (Value.vInt 2)), ("b", some (Value.vInt 3))]] }
    ∧ lookupCol ((df_combine [fragA, fragB]).rows.getD 0 []) "b" = none := by
  constructor
  · decide
  · decide

/-- C5 amended: when a fragment lacks a column of the union column set,
the concatenation still succeeds — the fragment's rows all appear in the
combined table, realigned with a null cell in the missing column — and no
error is raised (the combiner is a total function; pandas concat has no
ColumnMismatchError). -/
theorem df_combine_mismatch_fills_null
    (dfs : List DataFrame) (d : DataFrame) (r : Record) (c : String)
    (hd : d ∈ dfs) (hr : r ∈ d.rows) (hc : c ∉ recKeys r) :
    realignRecord (unionCols (dfs.map (fun x => x.cols))) r ∈ (df_combine dfs).rows
    ∧ lookupCol (realignRecord (unionCols (dfs.map (fun x => x.cols))) r) c
        = none := by
  constructor
  · show _ ∈ dfs.flatMap _
    exact List.mem_flatMap.mpr ⟨d, hd, List.mem_map.mpr ⟨r, hr, rfl⟩⟩
  · by_cases h : c ∈ unionCols (dfs.map (fun x => x.cols))
    · rw [lookupCol_realign_of_mem r h]
      exact lookupCol_eq_none_of_not_mem_keys hc
    · exact lookupCol_realign_of_not_mem r h

/-- Witness for the amended C5 at the concrete fragments: fragA's row is
in the combined table and its cell in fragB-only column "b" is null. -/
theorem df_combine_mismatch_fills_null_witness :
    realignRecord (unionCols ([fragA, fragB].map (fun x => x.cols)))
        [("a", some (Value.vInt 1))] ∈ (df_combine [fragA, fragB]).rows
    ∧ lookupCol (realignRecord (unionCols ([fragA, fragB].map (fun x => x.cols)))
        [("a", some (Value.vInt 1))]) "b" = none :=
  df_combine_mismatch_fills_null [fragA, fragB] fragA
    [("a", some (Value.vInt 1))] "b" (by decide) (by decide) (by decide)

/-! ### C4: the Schema Normalizer's backfill columns -/

theorem lookupCol_setKey_self (c : String) (v : Option Value) (r : Record) :
    lookupCol (setKey c v r) c = v := by
  induction r with
  | nil => simp [setKey, lookupCol]
  | cons kv r ih =>
    cases kv with
    | mk k w =>
      by_cases h : k = c
      · simp [setKey, h, lookupCol]
      · simp [setKey, h, lookupCol, ih]

theorem lookupCol_setKey_ne {c c' : String} (h : c' ≠ c) (v : Option Value)
    (r : Record) : lookupCol (setKey c v r) c' = lookupCol r c' := by
  induction r with
  | nil => simp [setKey, lookupCol, Ne.symm h]
  | cons kv r ih =>
    cases kv with
    | mk k w =>
      by_cases hk : k = c
      · subst hk; simp [setKey, lookupCol, Ne.symm h]
      · simp [setKey, hk, lookupCol, ih]

theorem map_const_eq_replicate {α β : Type _} (l : List α) (v : β) :
    l.map (fun _ => v) = List.replicate l.length v :=
  List.map_const l v

theorem colVals_setCol_self (df : DataFrame) (c : String) (v : Option Value) :
    colVals (setCol df c v) c = List.replicate df.rows.length v := by
  simp only [colVals, setCol, List.map_map, Function.comp_def, lookupCol_setKey_self]
  exact map_const_eq_replicate df.rows v

theorem colVals_setCol_ne {c c' : String} (df : DataFrame) (h : c' ≠ c)
    (v : Option Value) : colVals (setCol df c v) c' = colVals df c' := by
  simp only [colVals, setCol, List.map_map, Function.comp_def, lookupCol_setKey_ne h]

theorem rows_length_setCol (df : DataFrame) (c : String) (v : Option Value) :
    (setCol df c v).rows.length = df.rows.length := by
  simp [setCol]

theorem mem_cols_setCol {c c' : String} {df : DataFrame} {v : Option Value} :
    c' ∈ (setCol df c v).cols ↔ c' ∈ df.cols ∨ c' = c := by
  by_cases h : c ∈ df.cols
  · simp only [setCol, if_pos h]
    constructor
    · exact Or.inl
    · rintro (h' | h')
      · exact h'
      · exact h' ▸ h
  · simp [setCol, if_neg h, List.mem_append]

theorem colVals_sortCols_of_mem {c : String} (df : DataFrame)
    (h : c ∈ df.cols) : colVals (sortCols df) c = colVals df c := by
  simp only [colVals, sortCols, List.map_map, Function.comp_def]
  exact List.map_congr_left (fun r _ =>
    lookupCol_realign_of_mem r (mem_sortLe.mpr h))

theorem mem_cols_sortCols {c : String} {df : DataFrame} :
    c ∈ (sortCols df).cols ↔ c ∈ df.cols := mem_sortLe

theorem rows_length_flattenedDoc (doc : GeoJsonDoc) :
    (flattenedDoc doc).rows.length = doc.features.length := by
  simp [flattenedDoc, prependTypeCol, renameTypeCol, jsonNormalize]

theorem rows_length_normStep1 (doc : GeoJsonDoc) :
    (normStep1 doc).rows.length = doc.features.length := by
  simp [normStep1, rows_length_setCol, rows_length_flattenedDoc]

theorem rows_length_normStep2 (doc : GeoJsonDoc) :
    (normStep2 doc).rows.length = doc.features.length := by
  by_cases hL : "properties.isLocked" ∈ (normStep1 doc).cols <;>
    simp [normStep2, hL, rows_length_setCol, rows_length_normStep1]

theorem rows_length_normStep3 (doc : GeoJsonDoc) :
    (normStep3 doc).rows.length = doc.features.length := by
  simp [normStep3, rows_length_setCol, rows_length_normStep2]

theorem rows_length_normStep4 (doc : GeoJsonDoc) :
    (normStep4 doc).rows.length = doc.features.length := by
  by_cases hN : "properties.classification.names" ∈ (normStep3 doc).cols <;>
    simp [normStep4, hN, rows_length_setCol, rows_length_normStep3]

theorem mem_cols_normStep1_iL (doc : GeoJsonDoc) :
    "properties.isLocked" ∈ (normStep1 doc).cols ↔
      "properties.isLocked" ∈ (flattenedDoc doc).cols := by
  simp [normStep1, mem_cols_setCol,
    show "properties.isLocked" ≠ "has_is_locked_column_in_original_file" from
      by decide]

theorem mem_cols_normStep2_of {c : String} {doc : GeoJsonDoc}
    (h : c ∈ (normStep1 doc).cols) : c ∈ (normStep2 doc).cols := by
  by_cases hL : "properties.isLocked" ∈ (normStep1 doc).cols
  · simpa [normStep2, hL] using h
  · simp only [normStep2, if_neg hL, mem_cols_setCol]
    exact Or.inl (Or.inl h)

theorem mem_cols_normStep4_of {c : String} {doc : GeoJsonDoc}
    (h : c ∈ (normStep2 doc).cols) : c ∈ (normStep4 doc).cols := by
  have h3 : c ∈ (normStep3 doc).cols := by
    simp only [normStep3, mem_cols_setCol]; exact Or.inl h
  by_cases hN : "properties.classification.names" ∈ (normStep3 doc).cols
  · simpa [normStep4, hN] using h3
  · simp only [normStep4, if_neg hN, mem_cols_setCol]
    exact Or.inl (Or.inl h3)

theorem mem_cols_normStep3_nm (doc : GeoJsonDoc) :
    "properties.classification.names" ∈ (normStep3 doc).cols ↔
      "properties.classification.names" ∈ (flattenedDoc doc).cols := by
  have h1 : "properties.classification.names"
      ≠ "has_properties_classification_names_column_in_original_file" := by decide
  have h2 : "properties.classification.names" ≠ "properties.isLocked" := by decide
  have h3 : "properties.classification.names"
      ≠ "has_is_locked_column_in_original_file" := by decide
  have hmem1 : "properties.classification.names" ∈ (normStep1 doc).cols ↔
      "properties.classification.names" ∈ (flattenedDoc doc).cols := by
    simp [normStep1, mem_cols_setCol, h3]
  have hmem2 : "properties.classification.names" ∈ (normStep2 doc).cols ↔
      "properties.classification.names" ∈ (normStep1 doc).cols := by
    by_cases hL : "properties.isLocked" ∈ (normStep1 doc).cols
    · simp [normStep2, hL]
    · simp [normStep2, hL, mem_cols_setCol, h2, h3]
  simp [normStep3, mem_cols_setCol, h1, hmem2, hmem1]

theorem colVals_normStep2_ne {c : String} (doc : GeoJsonDoc)
    (h1 : c ≠ "properties.isLocked")
    (h2 : c ≠ "has_is_locked_column_in_original_file") :
    colVals (normStep2 doc) c = colVals (flattenedDoc doc) c := by
  have hstep1 : colVals (normStep1 doc) c = colVals (flattenedDoc doc) c := by
    simp [normStep1, colVals_setCol_ne _ h2]
  by_cases hL : "properties.isLocked" ∈ (normStep1 doc).cols
  · simp [normStep2, hL, hstep1]
  · simp [normStep2, hL, colVals_setCol_ne _ h1, colVals_setCol_ne _ h2, hstep1]

theorem colVals_normStep4_ne {c : String} (doc : GeoJsonDoc)
    (h1 : c ≠ "properties.classification.names")
    (h2 : c ≠ "has_properties_classification_names_column_in_original_file") :
    colVals (normStep4 doc) c = colVals (normStep2 doc) c := by
  have hstep3 : colVals (normStep3 doc) c = colVals (normStep2 doc) c := by
    simp [normStep3, colVals_setCol_ne _ h2]
  by_cases hN : "properties.classification.names" ∈ (normStep3 doc).cols
  · simp [normStep4, hN, hstep3]
  · simp [normStep4, hN, colVals_setCol_ne _ h1, colVals_setCol_ne _ h2, hstep3]

/-- C4: for every accepted GeoJSON document, if the flattened features
lack "properties.isLocked" then the Normalizer's output carries that
column as all-null and its provenance flag column as all-False; if the
column is present, the provenance flag column is all-True and the
original column values are preserved unchanged.  The same holds for
"properties.classification.names" and its provenance flag. -/
theorem normalizer_backfill_provenance (doc : GeoJsonDoc) (out : DataFrame)
    (h : read_geojson_file doc = Except.ok out) :
    (("properties.isLocked" ∉ (flattenedDoc doc).cols →
        colVals out "properties.isLocked"
          = List.replicate doc.features.length none
        ∧ colVals out "has_is_locked_column_in_original_file"
          = List.replicate doc.features.length (some (Value.vBool false)))
     ∧ ("properties.isLocked" ∈ (flattenedDoc doc).cols →
        colVals out "has_is_locked_column_in_original_file"
          = List.replicate doc.features.length (some (Value.vBool true))
        ∧ colVals out "properties.isLocked"
          = colVals (flattenedDoc doc) "properties.isLocked"))
    ∧ (("properties.classification.names" ∉ (flattenedDoc doc).cols →
        colVals out "properties.classification.names"
          = List.replicate doc.features.length none
        ∧ colVals out "has_properties_classification_names_column_in_original_file"
          = List.replicate doc.features.length (some (Value.vBool false)))
     ∧ ("properties.classification.names" ∈ (flattenedDoc doc).cols →
        colVals out "has_properties_classification_names_column_in_original_file"
          = List.replicate doc.features.length (some (Value.vBool true))
        ∧ colVals out "properties.classification.names"
          = colVals (flattenedDoc doc) "properties.classification.names")) := by
  have hout : out = sortCols (normStep4 doc) := by
    unfold read_geojson_file at h
    by_cases htop : doc.topCols = ["type", "features"]
    · rw [if_pos htop] at h
      injection h with h'
      exact h'.symm
    · rw [if_neg htop] at h
      cases h
  subst hout
  refine ⟨⟨?_, ?_⟩, ?_, ?_⟩
  · intro hL
    have hL1 : "properties.isLocked" ∉ (normStep1 doc).cols :=
      fun hm => hL ((mem_cols_normStep1_iL doc).mp hm)
    have hs2 : normStep2 doc
        = setCol (setCol (normStep1 doc) "properties.isLocked" none)
            "has_is_locked_column_in_original_file" (some (Value.vBool false)) := by
      simp only [normStep2, if_neg hL1]
    have hmemL2 : "properties.isLocked" ∈ (normStep2 doc).cols := by
      rw [hs2]
      exact mem_cols_setCol.mpr (Or.inl (mem_cols_setCol.mpr (Or.inr rfl)))
    have hmemF2 : "has_is_locked_column_in_original_file" ∈ (normStep2 doc).cols := by
      rw [hs2]
      exact mem_cols_setCol.mpr (Or.inr rfl)
    constructor
    · rw [colVals_sortCols_of_mem _ (mem_cols_normStep4_of hmemL2),
        colVals_normStep4_ne doc (by decide) (by decide), hs2,
        colVals_setCol_ne _ (by decide), colVals_setCol_self,
        rows_length_normStep1]
    · rw [colVals_sortCols_of_mem _ (mem_cols_normStep4_of hmemF2),
        colVals_normStep4_ne doc (by decide) (by decide), hs2,
        colVals_setCol_self, rows_length_setCol, rows_length_normStep1]
  · intro hL
    have hL1 : "properties.isLocked" ∈ (normStep1 doc).cols :=
      (mem_cols_normStep1_iL doc).mpr hL
    have hs2 : normStep2 doc = normStep1 doc := by
      simp only [normStep2, if_pos hL1]
    have hmemL2 : "properties.isLocked" ∈ (normStep2 doc).cols := hs2 ▸ hL1
    have hmemF2 : "has_is_locked_column_in_original_file" ∈ (normStep2 doc).cols := by
      rw [hs2]
      simp only [normStep1]
      exact mem_cols_setCol.mpr (Or.inr rfl)
    constructor
    · rw [colVals_sortCols_of_mem _ (mem_cols_normStep4_of hmemF2),
        colVals_normStep4_ne doc (by decide) (by decide), hs2]
      simp only [normStep1]
      rw [colVals_setCol_self, rows_length_flattenedDoc]
    · rw [colVals_sortCols_of_mem _ (mem_cols_normStep4_of hmemL2),
        colVals_normStep4_ne doc (by decide) (by decide), hs2]
      simp only [normStep1]
      rw [colVals_setCol_ne _ (by decide)]
  · intro hN
    have hN3 : "properties.classification.names" ∉ (normStep3 doc).cols :=
      fun hm => hN ((mem_cols_normStep3_nm doc).mp hm)
    have hs4 : normStep4 doc
        = setCol (setCol (normStep3 doc) "properties.classification.names" none)
            "has_properties_classification_names_column_in_original_file"
            (some (Value.vBool false)) := by
      simp only [normStep4, if_neg hN3]
    have hmemN4 : "properties.classification.names" ∈ (normStep4 doc).cols := by
      rw [hs4]
      exact mem_cols_setCol.mpr (Or.inl (mem_cols_setCol.mpr (Or.inr rfl)))
    have hmemF4 :
        "has_properties_classification_names_column_in_original_file"
          ∈ (normStep4 doc).cols := by
      rw [hs4]
      exact mem_cols_setCol.mpr (Or.inr rfl)
    constructor
    · rw [colVals_sortCols_of_mem _ hmemN4, hs4,
        colVals_setCol_ne _ (by decide), colVals_setCol_self,
        rows_length_normStep3]
    · rw [colVals_sortCols_of_mem _ hmemF4, hs4, colVals_setCol_self,
        rows_length_setCol, rows_length_normStep3]
  · intro hN
    have hN3 : "properties.classification.names" ∈ (normStep3 doc).cols :=
      (mem_cols_normStep3_nm doc).mpr hN
    have hs4 : normStep4 doc = normStep3 doc := by
      simp only [normStep4, if_pos hN3]
    have hmemN4 : "properties.classification.names" ∈ (normStep4 doc).cols :=
      hs4 ▸ hN3
    have hmemF4 :
        "has_properties_classification_names_column_in_original_file"
          ∈ (normStep4 doc).cols := by
      rw [hs4]
      simp only [normStep3]
      exact mem_cols_setCol.mpr (Or.inr rfl)
    constructor
    · rw [colVals_sortCols_of_mem _ hmemF4, hs4]
      simp only [normStep3]
      rw [colVals_setCol_self, rows_length_normStep2]
    · rw [colVals_sortCols_of_mem _ hmemN4, hs4]
      simp only [normStep3]
      rw [colVals_setCol_ne _ (by decide)]
      exact colVals_normStep2_ne doc (by decide) (by decide)

/-- A concrete GeoJSON document whose single flattened feature lacks both
"properties.isLocked" and "properties.classification.names". -/
def doc0 : GeoJsonDoc :=
  { topCols := ["type", "features"]
  , typeVal := some (Value.vStr "FeatureCollection")
  , features :=
      [[("type", some (Value.vStr "Feature")),
        ("properties.classification.name", some (Value.vStr "CD8"))]] }

/-- Witness for C4 at `doc0`: both backfill columns come out all-null and
both provenance flags all-False. -/
theorem normalizer_backfill_provenance_witness :
    colVals (sortCols (normStep4 doc0)) "properties.isLocked" = [none]
    ∧ colVals (sortCols (normStep4 doc0))
        "has_is_locked_column_in_original_file" = [some (Value.vBool false)]
    ∧ colVals (sortCols (normStep4 doc0)) "properties.classification.names"
        = [none]
    ∧ colVals (sortCols (normStep4 doc0))
        "has_properties_classification_names_column_in_original_file"
        = [some (Value.vBool false)] := by
  have h := normalizer_backfill_provenance doc0 (sortCols (normStep4 doc0)) rfl
  have hL := h.1.1 (by decide)
  have hN := h.2.1 (by decide)
  exact ⟨by rw [hL.1]; rfl, by rw [hL.2]; rfl, by rw [hN.1]; rfl,
    by rw [hN.2]; rfl⟩

/-! ### C1, C2, C10: the Threshold Aggregator -/

theorem clsOf_wherePassNoOther {t8 t4 tf : ℚ} {r : JoinedRow}
    (h : wherePassNoOther t8 t4 tf r = true) :
    r.classification = some "CD8" ∨ r.classification = some "CD4"
      ∨ r.classification = some "Foxp3" := by
  simp only [wherePassNoOther, clsIs, Bool.or_eq_true, Bool.and_eq_true,
    decide_eq_true_eq] at h
  rcases h with (⟨hc, _⟩ | ⟨hc, _⟩) | ⟨hc, _⟩
  · exact Or.inl hc
  · exact Or.inr (Or.inl hc)
  · exact Or.inr (Or.inr hc)

theorem wherePass_eq_wherePassNoOther (t8 t4 tf : ℚ) (r : JoinedRow) :
    wherePass t8 t4 tf r = wherePassNoOther t8 t4 tf r := by
  unfold wherePass
  cases hno : wherePassNoOther t8 t4 tf r with
  | false => simp
  | true =>
    rcases clsOf_wherePassNoOther hno with hc | hc | hc <;>
      simp +decide [clsNotOther, hc]

theorem clsOf_wherePass {t8 t4 tf : ℚ} {r : JoinedRow}
    (h : wherePass t8 t4 tf r = true) :
    r.classification = some "CD8" ∨ r.classification = some "CD4"
      ∨ r.classification = some "Foxp3" := by
  rw [wherePass_eq_wherePassNoOther] at h
  exact clsOf_wherePassNoOther h

theorem areaGe_of_wherePass {t8 t4 tf : ℚ} {r : JoinedRow}
    (h : wherePass t8 t4 tf r = true) :
    (r.classification = some "CD8" → areaGe r t8 = true)
    ∧ (r.classification = some "CD4" → areaGe r t4 = true)
    ∧ (r.classification = some "Foxp3" → areaGe r tf = true) := by
  rw [wherePass_eq_wherePassNoOther] at h
  simp only [wherePassNoOther, clsIs, Bool.or_eq_true, Bool.and_eq_true,
    decide_eq_true_eq] at h
  refine ⟨?_, ?_, ?_⟩ <;> intro hcls <;>
    rcases h with (⟨hc, ha⟩ | ⟨hc, ha⟩) | ⟨hc, ha⟩ <;>
    first
      | exact ha
      | exact absurd (hcls.symm.trans hc) (by decide)

theorem wherePass_of_mem_filteredRows {c : List AnnotationRow}
    {m : List MappingRow} {t8 t4 tf : ℚ} {r : JoinedRow}
    (h : r ∈ filteredRows c m t8 t4 tf) : wherePass t8 t4 tf r = true :=
  (List.mem_filter.mp h).2

theorem mem_final_query {c : List AnnotationRow} {m : List MappingRow}
    {t8 t4 tf : ℚ} {rec : AggRecord} (h : rec ∈ final_query c m t8 t4 tf) :
    ∃ k ∈ groupKeys (filteredRows c m t8 t4 tf),
      rec = mkAggRecord (filteredRows c m t8 t4 tf) k := by
  simp only [final_query] at h
  obtain ⟨k, hk, hrec⟩ := List.mem_map.mp h
  exact ⟨k, hk, hrec.symm⟩

/-- C1: in every aggregate output row, each per-class count is computed
over the already-threshold-filtered row set: a joined row contributes to
the CD8 count of its group only if its classification is CD8 AND its
area passed the CD8 threshold, and likewise for CD4 and Foxp3. -/
theorem final_query_counts_threshold_filtered
    (c : List AnnotationRow) (m : List MappingRow) (t8 t4 tf : ℚ)
    (rec : AggRecord) (h : rec ∈ final_query c m t8 t4 tf) :
    rec.cd8_count = ((filteredRows c m t8 t4 tf).filter (fun r =>
        decide ((r.mouse_id, r.image_number) = (rec.mouse_id, rec.image_number))
          && (clsIs r "CD8" && areaGe r t8))).length
    ∧ rec.cd4_count = ((filteredRows c m t8 t4 tf).filter (fun r =>
        decide ((r.mouse_id, r.image_number) = (rec.mouse_id, rec.image_number))
          && (clsIs r "CD4" && areaGe r t4))).length
    ∧ rec.foxp3_count = ((filteredRows c m t8 t4 tf).filter (fun r =>
        decide ((r.mouse_id, r.image_number) = (rec.mouse_id, rec.image_number))
          && (clsIs r "Foxp3" && areaGe r tf))).length := by
  obtain ⟨k, _, hrec⟩ := mem_final_query h
  obtain ⟨km, ki⟩ := k
  subst hrec
  have main : ∀ (s : String) (t : ℚ),
      (∀ r : JoinedRow, wherePass t8 t4 tf r = true →
        r.classification = some s → areaGe r t = true) →
      (((filteredRows c m t8 t4 tf).filter (fun r =>
          decide ((r.mouse_id, r.image_number) = (km, ki)))).filter
        (fun r => clsIs r s)).length
      = ((filteredRows c m t8 t4 tf).filter (fun r =>
          decide ((r.mouse_id, r.image_number) = (km, ki))
            && (clsIs r s && areaGe r t))).length := by
    intro s t harea
    apply congrArg List.length
    rw [List.filter_filter]
    apply List.filter_congr
    intro r hr
    have hw : wherePass t8 t4 tf r = true := wherePass_of_mem_filteredRows hr
    cases hp : decide ((r.mouse_id, r.image_number) = (km, ki)) with
    | false => simp [hp]
    | true =>
      cases hq : clsIs r s with
      | false => simp [hp, hq]
      | true =>
        have hcls : r.classification = some s := by simpa [clsIs] using hq
        have ha : areaGe r t = true := harea r hw hcls
        simp [hp, hq, ha]
  refine ⟨?_, ?_, ?_⟩
  · exact main "CD8" t8 (fun r hw hc => (areaGe_of_wherePass hw).1 hc)
  · exact main "CD4" t4 (fun r hw hc => (areaGe_of_wherePass hw).2.1 hc)
  · exact main "Foxp3" tf (fun r hw hc => (areaGe_of_wherePass hw).2.2 hc)

/-- Annotation rows of the claim's concrete example: image 1, one CD8
cell of area 30 and one of area 10. -/
def exAnn : List AnnotationRow :=
  [{ image_number := 1, classification := some "CD8", area := some 30 },
   { image_number := 1, classification := some "CD8", area := some 10 }]

/-- Mapping table of the concrete examples: mouse M1 owns image 1. -/
def exMap : List MappingRow := [{ mouse_id := "M1", image_number := 1 }]

/-- The aggregate row the example produces: CD8 count 1, not 2. -/
def exRec : AggRecord :=
  { mouse_id := some "M1", image_number := 1, row_count := 1,
    cd8_count := 1, cd4_count := 0, foxp3_count := 0 }

/-- Witness for C1: with CD8 threshold 25 the (M1, 1) group counts the
area-30 row but not the area-10 row, so its CD8 count is 1, not 2. -/
theorem final_query_counts_threshold_filtered_witness :
    final_query exAnn exMap 25 30 20 = [exRec]
    ∧ exRec.cd8_count = ((filteredRows exAnn exMap 25 30 20).filter (fun r =>
        decide ((r.mouse_id, r.image_number) = (exRec.mouse_id, exRec.image_number))
          && (clsIs r "CD8" && areaGe r 25))).length := by
  refine ⟨by decide, ?_⟩
  exact (final_query_counts_threshold_filtered exAnn exMap 25 30 20 exRec
    (by decide)).1

/-- C2: an annotation row whose image identifier matches no mapping
record is retained by the left join: whenever it passes the WHERE filter
it contributes to an aggregate group whose mouse identifier is null,
rather than being dropped. -/
theorem final_query_left_join_null_mouse
    (c : List AnnotationRow) (m : List MappingRow) (t8 t4 tf : ℚ)
    (a : AnnotationRow) (ha : a ∈ c)
    (hnm : ∀ r ∈ m, r.image_number ≠ a.image_number)
    (hp : wherePass t8 t4 tf
      { mouse_id := none, image_number := a.image_number,
        classification := a.classification, area := a.area } = true) :
    ∃ rec ∈ final_query c m t8 t4 tf,
      rec.mouse_id = none ∧ rec.image_number = a.image_number
        ∧ 0 < rec.row_count := by
  have hj : ({ mouse_id := none
               , image_number := a.image_number
               , classification := a.classification
               , area := a.area } : JoinedRow) ∈ leftJoin c m := by
    unfold leftJoin
    apply List.mem_flatMap.mpr
    refine ⟨a, ha, ?_⟩
    have hms : m.filter (fun r => decide (r.image_number = a.image_number)) = [] :=
      List.filter_eq_nil_iff.mpr (fun r hr => by simpa using hnm r hr)
    simp [hms]
  have hjf : ({ mouse_id := none
                , image_number := a.image_number
                , classification := a.classification
                , area := a.area } : JoinedRow) ∈ filteredRows c m t8 t4 tf :=
    List.mem_filter.mpr ⟨hj, hp⟩
  have hkey : ((none : Option String), a.image_number)
      ∈ groupKeys (filteredRows c m t8 t4 tf) := by
    unfold groupKeys
    apply mem_sortLe.mpr
    apply List.mem_dedup.mpr
    exact List.mem_map.mpr ⟨_, hjf, rfl⟩
  refine ⟨mkAggRecord (filteredRows c m t8 t4 tf) (none, a.image_number),
    ?_, rfl, rfl, ?_⟩
  · simp only [final_query]
    exact List.mem_map.mpr ⟨(none, a.image_number), hkey, rfl⟩
  · apply List.length_pos_of_mem
    exact List.mem_filter.mpr ⟨hjf, by simp⟩

/-- Annotation rows of the unmatched-image example: image 7 has no
mapping entry. -/
def exAnnNoMap : List AnnotationRow :=
  [{ image_number := 7, classification := some "CD4", area := some 50 }]

/-- Witness for C2: the CD4 row of unmapped image 7 still contributes an
output group, with null mouse identifier. -/
theorem final_query_left_join_null_mouse_witness :
    ∃ rec ∈ final_query exAnnNoMap exMap 25 30 20,
      rec.mouse_id = none ∧ rec.image_number = 7 ∧ 0 < rec.row_count :=
  final_query_left_join_null_mouse exAnnNoMap exMap 25 30 20
    { image_number := 7, classification := some "CD4", area := some 50 }
    (by decide) (by decide) (by decide)

theorem length_filter_partition (l : List JoinedRow)
    (h : ∀ r ∈ l, r.classification = some "CD8" ∨ r.classification = some "CD4"
      ∨ r.classification = some "Foxp3") :
    l.length = (l.filter (fun r => clsIs r "CD8")).length
      + (l.filter (fun r => clsIs r "CD4")).length
      + (l.filter (fun r => clsIs r "Foxp3")).length := by
  induction l with
  | nil => rfl
  | cons r l ih =>
    have hr := h r (List.mem_cons_self r l)
    have hl := ih (fun x hx => h x (List.mem_cons_of_mem r hx))
    rcases hr with hc | hc | hc <;>
      simp +decide [List.filter_cons, clsIs, hc, hl] <;> omega

/-- C10: the WHERE filter admits only rows classified exactly CD8, CD4
or Foxp3 (null or other classifications, and null areas, never pass), so
the trailing `!= 'Other'` conjunct is redundant, and every aggregate
output row's total count is partitioned by the three per-class counts. -/
theorem final_query_row_count_partition
    (c : List AnnotationRow) (m : List MappingRow) (t8 t4 tf : ℚ) :
    (∀ r : JoinedRow, wherePass t8 t4 tf r = wherePassNoOther t8 t4 tf r)
    ∧ (∀ r : JoinedRow, wherePass t8 t4 tf r = true →
        r.classification = some "CD8" ∨ r.classification = some "CD4"
          ∨ r.classification = some "Foxp3")
    ∧ ∀ rec ∈ final_query c m t8 t4 tf,
        rec.row_count = rec.cd8_count + rec.cd4_count + rec.foxp3_count := by
  refine ⟨wherePass_eq_wherePassNoOther t8 t4 tf,
    fun r h => clsOf_wherePass h, ?_⟩
  intro rec hrec
  obtain ⟨k, _, hk⟩ := mem_final_query hrec
  subst hk
  exact length_filter_partition _ (fun r hr =>
    clsOf_wherePass (wherePass_of_mem_filteredRows (List.mem_filter.mp hr).1))

/-- Witness for C10 at the concrete example: 1 = 1 + 0 + 0 for the (M1,
1) group. -/
theorem final_query_row_count_partition_witness :
    exRec.row_count = exRec.cd8_count + exRec.cd4_count + exRec.foxp3_count :=
  (final_query_row_count_partition exAnn exMap 25 30 20).2.2 exRec (by decide)

/-! ### C7 and C6: the Validation Comparator -/

/-- C7: the comparator joins inner on (mouse identifier, image
identifier) — a key appears in the comparison output exactly when it
appears in both input tables — and each retained row's delta columns are
reference count minus aggregate count, with a null reference count
propagating to a null delta (never treated as zero). -/
theorem df_check_inner_join_deltas (ref : List RefRow) (agg : List AggRecord) :
    (∀ (mid : Option String) (img : Int),
      (∃ row ∈ df_check ref agg, row.mouse_id = mid ∧ row.image_number = img)
        ↔ ((∃ r ∈ ref, r.mouse_id = mid ∧ r.image_number = img)
            ∧ (∃ a ∈ agg, a.mouse_id = mid ∧ a.image_number = img)))
    ∧ (∀ row ∈ df_check ref agg,
        row.cd8_delta = row.cd8_by_xm.map (fun v => v - (row.cd8_count : ℚ))
        ∧ row.cd4_delta = row.cd4_by_xm.map (fun v => v - (row.cd4_count : ℚ))
        ∧ row.foxp3_delta
            = row.foxp3_by_xm.map (fun v => v - (row.foxp3_count : ℚ))
        ∧ (row.cd8_by_xm = none → row.cd8_delta = none)
        ∧ (row.cd4_by_xm = none → row.cd4_delta = none)
        ∧ (row.foxp3_by_xm = none → row.foxp3_delta = none)) := by
  constructor
  · intro mid img
    constructor
    · rintro ⟨row, hrow, hmid, himg⟩
      simp only [df_check] at hrow
      obtain ⟨r, hr, hrow2⟩ := List.mem_flatMap.mp hrow
      obtain ⟨a, hafil, hmk⟩ := List.mem_map.mp hrow2
      obtain ⟨haagg, hcond⟩ := List.mem_filter.mp hafil
      rw [decide_eq_true_eq] at hcond
      subst hmk
      refine ⟨⟨r, hr, hmid, himg⟩, ⟨a, haagg, ?_, ?_⟩⟩
      · rw [hcond.1]; exact hmid
      · rw [hcond.2]; exact himg
    · rintro ⟨⟨r, hr, hrm, hri⟩, ⟨a, ha, ham, hai⟩⟩
      refine ⟨mkCheckRow r a, ?_, hrm, hri⟩
      simp only [df_check]
      apply List.mem_flatMap.mpr
      refine ⟨r, hr, ?_⟩
      apply List.mem_map.mpr
      refine ⟨a, ?_, rfl⟩
      apply List.mem_filter.mpr
      refine ⟨ha, ?_⟩
      rw [decide_eq_true_eq]
      exact ⟨ham.trans hrm.symm, hai.trans hri.symm⟩
  · intro row hrow
    simp only [df_check] at hrow
    obtain ⟨r, _, hrow2⟩ := List.mem_flatMap.mp hrow
    obtain ⟨a, _, hmk⟩ := List.mem_map.mp hrow2
    subst hmk
    refine ⟨rfl, rfl, rfl, ?_, ?_, ?_⟩
    · intro hnone
      have hd : (mkCheckRow r a).cd8_delta
          = (mkCheckRow r a).cd8_by_xm.map
              (fun v => v - ((mkCheckRow r a).cd8_count : ℚ)) := rfl
      rw [hd, hnone]
      rfl
    · intro hnone
      have hd : (mkCheckRow r a).cd4_delta
          = (mkCheckRow r a).cd4_by_xm.map
              (fun v => v - ((mkCheckRow r a).cd4_count : ℚ)) := rfl
      rw [hd, hnone]
      rfl
    · intro hnone
      have hd : (mkCheckRow r a).foxp3_delta
          = (mkCheckRow r a).foxp3_by_xm.map
              (fun v => v - ((mkCheckRow r a).foxp3_count : ℚ)) := rfl
      rw [hd, hnone]
      rfl

/-- Reference row of the comparator example: CD8 count 5, null CD4
count, Foxp3 count 2 for (M1, 1). -/
def exRefRow : RefRow :=
  { mouse_id := some "M1", image_number := 1,
    cd8_by_xm := some 5, cd4_by_xm := none, foxp3_by_xm := some 2 }

/-- Aggregate row of the comparator example matching (M1, 1). -/
def exAggRow : AggRecord :=
  { mouse_id := some "M1", image_number := 1, row_count := 3,
    cd8_count := 2, cd4_count := 1, foxp3_count := 0 }

/-- Aggregate row present only in the aggregate table, key (M2, 9). -/
def exAggRow2 : AggRecord :=
  { mouse_id := some "M2", image_number := 9, row_count := 1,
    cd8_count := 1, cd4_count := 0, foxp3_count := 0 }

/-- The comparator example's reference table. -/
def exRef : List RefRow := [exRefRow]

/-- The comparator example's aggregate table. -/
def exAgg : List AggRecord := [exAggRow, exAggRow2]

/-- Witness for C7: the aggregate-only key (M2, 9) is absent from the
comparison output; in the retained (M1, 1) row the null CD4 reference
gives a null delta and the CD8 delta is 5 - 2 = 3. -/
theorem df_check_inner_join_deltas_witness :
    ¬(∃ row ∈ df_check exRef exAgg,
        row.mouse_id = some "M2" ∧ row.image_number = 9)
    ∧ (mkCheckRow exRefRow exAggRow).cd4_delta = none
    ∧ (mkCheckRow exRefRow exAggRow).cd8_delta = some 3 := by
  have h := df_check_inner_join_deltas exRef exAgg
  have hdf : df_check exRef exAgg = [mkCheckRow exRefRow exAggRow] := rfl
  have hmem : mkCheckRow exRefRow exAggRow ∈ df_check exRef exAgg := by
    rw [hdf]
    exact List.mem_singleton_self _
  refine ⟨?_, ?_, ?_⟩
  · intro hex
    have hboth := (h.1 (some "M2") 9).mp hex
    exact absurd hboth.1 (by decide)
  · exact (h.2 (mkCheckRow exRefRow exAggRow) hmem).2.2.2.2.1 rfl
  · rw [(h.2 (mkCheckRow exRefRow exAggRow) hmem).1]
    have p1 : (mkCheckRow exRefRow exAggRow).cd8_by_xm = some 5 := rfl
    have p2 : (mkCheckRow exRefRow exAggRow).cd8_count = 2 := rfl
    rw [p1]
    simp only [p2, Option.map_some']
    norm_num

/-- Reference table whose only row has all three reference count fields
null, for key (M1, 1). -/
def refAllNull : List RefRow :=
  [{ mouse_id := some "M1", image_number := 1,
     cd8_by_xm := none, cd4_by_xm := none, foxp3_by_xm := none }]

/-- Aggregate table with a matching (M1, 1) row. -/
def aggForNull : List AggRecord :=
  [{ mouse_id := some "M1", image_number := 1, row_count := 2,
     cd8_count := 1, cd4_count := 1, foxp3_count := 0 }]

/-- C6, evaluated at the failing input: the comparison output KEEPS the
row whose three reference count fields are all null.  The
`df_check.query(...)` call on src/app.py line 141 does not assign its
result, so the intended all-null-row filter (documented by the comment
above it) never takes effect. -/
theorem df_check_keeps_all_null_reference_row :
    (df_check refAllNull aggForNull).length = 1
    ∧ ∃ row ∈ df_check refAllNull aggForNull,
        row.cd8_by_xm = none ∧ row.cd4_by_xm = none
          ∧ row.foxp3_by_xm = none := by
  constructor
  · decide
  · decide
